import Mathlib

/-! # Optimistic concurrency control over the `employee` and `timer` tables

A shallow embedding of `internal/sql.go` and `internal/types.go`, of the actor loop of
`internal/main.go` and of `internal/config.go`.

* The Go structs `Employee` and `Timer` are records; a `*Employee` argument that may be
  `nil` is an `Option Employee`; a Go result `(*Employee, error)` is an `Except Err Employee`.
* The datastore is a pair of tables (lists of rows).  Every Go function takes the store
  and returns its result together with the store left behind, so "the table is unchanged"
  is an equation between stores.
* Each SQL statement of `sql.go` is one Lean function over the store; it receives the
  argument list exactly as the Go call site builds it.
* A transaction keeps the committed store and a working copy: `Commit` publishes the
  working copy, `Rollback` (also the deferred one) returns the committed store.
* The connection is healthy: `Begin`, `Commit` and `Rollback` do not fail by themselves.
* Go `int` is 64 bits wide: the sums `employee.Version + 1` and `timer.Version + 1` that
  the Go code computes wrap around (`wrapInt64`).  The `version=version+1` of a statement is
  computed by the datastore on a column whose width belongs to the schema, which is not
  part of the sources: there the integers are mathematical (`Int`).
-/

namespace DataConsistency

/-! ## Data model (`types.go`) -/

/-- Go struct `Employee`. -/
structure Employee where
  ID : String
  FirstName : String
  LastName : String
  EmailAddress : String
  Version : Int
  LastUpdated : Int
deriving DecidableEq, Repr

/-- Go struct `Timer`. -/
structure Timer where
  ID : String
  Comment : String
  Start : Int
  Finish : Int
  ElapsedTime : Int
  Completed : Bool
  Version : Int
  EmployeeID : String
deriving DecidableEq, Repr

/-- The Go zero value `&Employee{}`. -/
def Employee.zero : Employee :=
  { ID := "", FirstName := "", LastName := "", EmailAddress := "", Version := 0, LastUpdated := 0 }

/-- The Go zero value `&Timer{}`. -/
def Timer.zero : Timer :=
  { ID := "", Comment := "", Start := 0, Finish := 0, ElapsedTime := 0, Completed := false,
    Version := 0, EmployeeID := "" }

/-- Modelled from the spec: the persisted schema is not part of the sources.  A row of table
`employee`: the columns named by the statements of `sql.go` (`id` is the surrogate key read by
`TimerCreate`), `uuid` unique, `email_address` unique, integer `version` that is 1 on insert. -/
structure EmployeeRow where
  id : Int
  uuid : String
  first_name : String
  last_name : String
  email_address : String
  version : Int
deriving DecidableEq, Repr

/-- Modelled from the spec: the persisted schema is not part of the sources.  A row of table
`timer`: the columns named by `TimerCreate` and `TimerRead`, `uuid` unique, `employee_id` a
foreign key to `employee.id`, `finish` 0 while not finished, integer `version` 1 on insert. -/
structure TimerRow where
  uuid : String
  start : Int
  finish : Int
  comment : String
  completed : Bool
  employee_id : Int
  version : Int
deriving DecidableEq, Repr

/-- The datastore: the two tables. -/
structure DB where
  employee : List EmployeeRow
  timer : List TimerRow
deriving DecidableEq, Repr

/-- Errors a store call can return. -/
inductive Err where
  | nilArgument
  | noRowsAffected
  | errNoRows
  | notFound
  | duplicateKey
  | foreignKey
  | unsupportedArgument
  | unknownColumn
  | badArguments
deriving DecidableEq, Repr

/-- A Go value handed to `database/sql` as a statement argument. -/
inductive Value where
  | text (s : String)
  | integer (i : Int)
  | slice (vs : List Value)

/-- What `database/sql` can convert into a driver value: a `[]interface{}` is not. -/
def Value.supported : Value → Bool
  | .text _ => true
  | .integer _ => true
  | .slice _ => false

/-- Argument conversion done by `database/sql` before a statement reaches the server. -/
def driverArgs (args : List Value) : Except Err (List Value) :=
  if args.all Value.supported then .ok args else .error .unsupportedArgument

/-- The column `uuid` of table `employee`. -/
def uuids (rows : List EmployeeRow) : List String := rows.map (fun r => r.uuid)

/-- The column `email_address` of table `employee`. -/
def emails (rows : List EmployeeRow) : List String := rows.map (fun r => r.email_address)

/-- Modelled from the spec: the unique constraints of table `employee` (one row per
identifier, one row per email address). -/
def UniqueKeys (rows : List EmployeeRow) : Prop :=
  (uuids rows).Nodup ∧ (emails rows).Nodup

instance (rows : List EmployeeRow) : Decidable (UniqueKeys rows) :=
  inferInstanceAs (Decidable ((uuids rows).Nodup ∧ (emails rows).Nodup))

/-- Modelled from the spec: the unique constraint of table `timer` (one row per identifier). -/
def UniqueTimers (rows : List TimerRow) : Prop :=
  List.Nodup (List.map TimerRow.uuid rows)

instance (rows : List TimerRow) : Decidable (UniqueTimers rows) :=
  inferInstanceAs (Decidable (List.Nodup (List.map TimerRow.uuid rows)))

/-! ## Transactions -/

/-- An open transaction: the committed store and the working copy. -/
structure Tx where
  base : DB
  work : DB

/-- The call `db.Begin()`. -/
def Begin (db : DB) : Tx := { base := db, work := db }

/-- The call `tx.Commit()`: the working copy becomes the store. -/
def Tx.Commit (tx : Tx) : DB := tx.work

/-- The call `tx.Rollback()`: the store is what it was at `Begin`. -/
def Tx.Rollback (tx : Tx) : DB := tx.base

/-- The call `tx.Exec`: a statement that reports its affected rows, run on the working copy. -/
def Tx.Exec (tx : Tx) (stmt : DB → List Value → Except Err (Nat × DB)) (args : List Value) :
    Except Err (Nat × Tx) :=
  match stmt tx.work args with
  | .ok (n, work) => .ok (n, { tx with work := work })
  | .error err => .error err

/-- The calls `tx.QueryRow` and `row.Scan` of a statement that only reads. -/
def Tx.QueryRow {α : Type} (tx : Tx) (stmt : DB → List Value → Except Err α) (args : List Value) :
    Except Err α :=
  stmt tx.work args

/-- The calls `tx.QueryRow` and `row.Scan` of a statement that writes and returns a row. -/
def Tx.QueryRowReturning {α : Type} (tx : Tx) (stmt : DB → List Value → Except Err (α × DB))
    (args : List Value) : Except Err (α × Tx) :=
  match stmt tx.work args with
  | .ok (a, work) => .ok (a, { tx with work := work })
  | .error err => .error err

/-- Modelled from the spec: the helper `RowsAffected` is not part of the sources; a statement
that affected zero rows is reported as an error. -/
def RowsAffected (n : Nat) : Except Err Unit :=
  if n = 0 then .error .noRowsAffected else .ok ()

/-! ## The statements of `sql.go` on table `employee` -/

/-- The next value of the surrogate key: larger than every stored one. -/
def nextId (rows : List EmployeeRow) : Int :=
  (rows.map (fun r => r.id)).foldl max 0 + 1

/-- The clause `ON DUPLICATE KEY UPDATE first_name=?, last_name=?, version=version+1`. -/
def EmployeeRow.recreated (r : EmployeeRow) (first last : String) : EmployeeRow :=
  { r with first_name := first, last_name := last, version := r.version + 1 }

/-- The clause `SET first_name=?, last_name=?, email_address=?, version=version+1`. -/
def EmployeeRow.written (r : EmployeeRow) (first last email : String) : EmployeeRow :=
  { r with first_name := first, last_name := last, email_address := email,
           version := r.version + 1 }

/-- The table after `SET first_name=?, last_name=?, email_address=?, version=version+1
WHERE uuid=? and version=?`. -/
def writtenRows (rows : List EmployeeRow) (first last email uuid : String) (version : Int) :
    List EmployeeRow :=
  rows.map (fun r => if r.uuid = uuid ∧ r.version = version then r.written first last email else r)

/-- Statement of `EmployeeCreate`:
`INSERT INTO employee (uuid, first_name, last_name, email_address) VALUES (?, ?, ?, ?)
 ON DUPLICATE KEY UPDATE first_name=?, last_name=?, version=version+1
 RETURNING uuid, first_name, last_name, email_address, version`.
A row that collides on `uuid`, else one that collides on `email_address`, is updated in place;
without a collision a row with version 1 is appended.  The row as stored is returned. -/
def insertEmployee (db : DB) (args : List Value) : Except Err (EmployeeRow × DB) :=
  match driverArgs args with
  | .error err => .error err
  | .ok [.text uuid, .text first, .text last, .text email, .text first2, .text last2] =>
    match db.employee.find? (fun r => decide (r.uuid = uuid)) with
    | some hit =>
      let rows : List EmployeeRow :=
        db.employee.map (fun r => if r.uuid = uuid then r.recreated first2 last2 else r)
      .ok (hit.recreated first2 last2, { db with employee := rows })
    | none =>
      match db.employee.find? (fun r => decide (r.email_address = email)) with
      | some hit =>
        let rows : List EmployeeRow :=
          db.employee.map (fun r => if r.email_address = email then r.recreated first2 last2 else r)
        .ok (hit.recreated first2 last2, { db with employee := rows })
      | none =>
        let row : EmployeeRow :=
          { id := nextId db.employee, uuid := uuid, first_name := first, last_name := last,
            email_address := email, version := 1 }
        .ok (row, { db with employee := db.employee ++ [row] })
  | .ok _ => .error .badArguments

/-- Modelled from the spec: the foreign key of `timer.employee_id` rejects the removal of an
employee row that a timer row references.  The rows selected by `doomed` are removed. -/
def deleteEmployeeRows (db : DB) (doomed : EmployeeRow → Bool) : Except Err (Nat × DB) :=
  if db.timer.any (fun t => db.employee.any (fun r => doomed r && decide (r.id = t.employee_id)))
  then .error .foreignKey
  else .ok ((db.employee.filter doomed).length,
    { db with employee := db.employee.filter (fun r => !doomed r) })

/-- Statement of `EmployeeDelete` for a nil employee: `DELETE from employee`. -/
def deleteEmployeeAll (db : DB) (args : List Value) : Except Err (Nat × DB) :=
  match driverArgs args with
  | .error err => .error err
  | .ok [] => deleteEmployeeRows db (fun _ => true)
  | .ok _ => .error .badArguments

/-- Statement of `EmployeeDelete`: `DELETE from employee WHERE uuid=? OR email_address=?`. -/
def deleteEmployee (db : DB) (args : List Value) : Except Err (Nat × DB) :=
  match driverArgs args with
  | .error err => .error err
  | .ok [.text uuid, .text email] =>
    deleteEmployeeRows db (fun r => decide (r.uuid = uuid) || decide (r.email_address = email))
  | .ok _ => .error .badArguments

/-- Modelled from the spec: the unique constraint on `email_address` while the `UPDATE` of
`EmployeeWrite` runs.  The new email address is taken when a row the statement does not
touch carries it already, or when the statement would give it to more than one row. -/
def emailTaken (rows : List EmployeeRow) (email uuid : String) (version : Int) : Bool :=
  decide (1 < (rows.filter (fun r => decide (r.uuid = uuid ∧ r.version = version))).length) ||
    rows.any (fun r => !decide (r.uuid = uuid ∧ r.version = version) &&
      decide (r.email_address = email))

/-- Statement of `EmployeeWrite`:
`UPDATE employee SET first_name=?, last_name=?, email_address=?, version=version+1
 WHERE uuid=? and version=?`.
The affected rows are counted; the update is refused with a duplicate-key error when the
new email address is taken. -/
def updateEmployee (db : DB) (args : List Value) : Except Err (Nat × DB) :=
  match driverArgs args with
  | .error err => .error err
  | .ok [.text first, .text last, .text email, .text uuid, .integer version] =>
    let n := (db.employee.filter (fun r => decide (r.uuid = uuid ∧ r.version = version))).length
    let rows := writtenRows db.employee first last email uuid version
    if n = 0 then .ok (0, db)
    else if emailTaken db.employee email uuid version then .error .duplicateKey
    else .ok (n, { db with employee := rows })
  | .ok _ => .error .badArguments

/-- Statement of `EmployeeWrite`:
`SELECT uuid, first_name, last_name, email_address, version FROM employee
 WHERE uuid=? AND version=?`; `Scan` reports `ErrNoRows` when nothing matches. -/
def selectEmployeeVersion (db : DB) (args : List Value) : Except Err EmployeeRow :=
  match driverArgs args with
  | .error err => .error err
  | .ok [.text uuid, .integer version] =>
    match db.employee.find? (fun r => decide (r.uuid = uuid ∧ r.version = version)) with
    | some row => .ok row
    | none => .error .errNoRows
  | .ok _ => .error .badArguments

/-- Statement of `EmployeeRead`:
`SELECT uuid, first_name, last_name, email_address, version FROM employee WHERE uuid=?`. -/
def selectEmployee (db : DB) (args : List Value) : Except Err EmployeeRow :=
  match driverArgs args with
  | .error err => .error err
  | .ok [.text uuid] =>
    match db.employee.find? (fun r => decide (r.uuid = uuid)) with
    | some row => .ok row
    | none => .error .errNoRows
  | .ok _ => .error .badArguments

/-- The `row.Scan` of the five employee columns into a fresh `&Employee{}`. -/
def scanEmployee (row : EmployeeRow) : Employee :=
  { Employee.zero with
    ID := row.uuid, FirstName := row.first_name, LastName := row.last_name,
    EmailAddress := row.email_address, Version := row.version }

/-! ## The employee operations of `sql.go` -/

/-- The value of a Go `int` expression whose mathematical value is `i`: 64 bits, two's
complement, so the sum wraps around past `2^63 - 1`. -/
def wrapInt64 (i : Int) : Int :=
  (i + 9223372036854775808) % 18446744073709551616 - 9223372036854775808

/-- The Go function `EmployeeCreate`: one statement on the connection itself. -/
def EmployeeCreate (db : DB) (employee : Option Employee) : Except Err Employee × DB :=
  match employee with
  | none => (.error .nilArgument, db)
  | some employee =>
    match insertEmployee db
      [.text employee.ID, .text employee.FirstName, .text employee.LastName,
       .text employee.EmailAddress, .text employee.FirstName, .text employee.LastName] with
    | .error err => (.error err, db)
    | .ok (row, db) => (.ok (scanEmployee row), db)

/-- The Go function `EmployeeDelete`: `none` is returned for a nil error. -/
def EmployeeDelete (db : DB) (employee : Option Employee) : Option Err × DB :=
  match employee with
  | none =>
    match deleteEmployeeAll db [] with
    | .error err => (some err, db)
    | .ok (_, db) => (none, db)
  | some employee =>
    match deleteEmployee db [.text employee.ID, .text employee.EmailAddress] with
    | .error err => (some err, db)
    | .ok (_, db) => (none, db)

/-- The Go function `EmployeeWrite`. -/
def EmployeeWrite (db : DB) (employee : Option Employee) : Except Err Employee × DB :=
  match employee with
  | none => (.error .nilArgument, db)
  | some employee =>
    let tx := Begin db
    match tx.Exec updateEmployee
      [.text employee.FirstName, .text employee.LastName, .text employee.EmailAddress,
       .text employee.ID, .integer employee.Version] with
    | .error err => (.error err, tx.Rollback)
    | .ok (n, tx) =>
      match RowsAffected n with
      | .error err => (.error err, tx.Rollback)
      | .ok _ =>
        match tx.QueryRow selectEmployeeVersion
          [.text employee.ID, .integer (wrapInt64 (employee.Version + 1))] with
        | .error err => (.error err, tx.Rollback)
        | .ok row => (.ok (scanEmployee row), tx.Commit)

/-- The Go function `EmployeeRead`. -/
def EmployeeRead (db : DB) (employeeUUID : String) : Except Err Employee × DB :=
  let tx := Begin db
  match tx.QueryRow selectEmployee [.text employeeUUID] with
  | .error .errNoRows => (.error .notFound, tx.Rollback)
  | .error err => (.error err, tx.Rollback)
  | .ok row => (.ok (scanEmployee row), tx.Rollback)

/-! ## The statements of `sql.go` on table `timer` -/

/-- Statement of `TimerCreate`: `SELECT id from employee WHERE uuid=?`, scanned into an `int`. -/
def selectEmployeeId (db : DB) (args : List Value) : Except Err Int :=
  match driverArgs args with
  | .error err => .error err
  | .ok [.text uuid] =>
    match db.employee.find? (fun r => decide (r.uuid = uuid)) with
    | some row => .ok row.id
    | none => .error .errNoRows
  | .ok _ => .error .badArguments

/-- The clause `ON DUPLICATE KEY UPDATE comment=?, employee_id=?, version=version+1`. -/
def TimerRow.recreated (r : TimerRow) (comment : String) (owner : Int) : TimerRow :=
  { r with comment := comment, employee_id := owner, version := r.version + 1 }

/-- Statement of `TimerCreate`:
`INSERT INTO timer (uuid, start, comment, employee_id) VALUES (?, ?, ?, ?)
 ON DUPLICATE KEY UPDATE comment=?, employee_id=?, version=version+1
 RETURNING uuid, start, comment, employee_id, version`.
A row that collides on `uuid` is updated in place; without a collision a row with version 1,
finish 0 and not completed is appended.  The foreign key wants `employee_id` to be the `id`
of a stored employee row. -/
def insertTimer (db : DB) (args : List Value) : Except Err (TimerRow × DB) :=
  match driverArgs args with
  | .error err => .error err
  | .ok [.text uuid, .integer start, .text comment, .integer owner, .text comment2,
         .integer owner2] =>
    match db.timer.find? (fun r => decide (r.uuid = uuid)) with
    | some hit =>
      if db.employee.any (fun r => decide (r.id = owner2)) then
        let rows : List TimerRow :=
          db.timer.map (fun r => if r.uuid = uuid then r.recreated comment2 owner2 else r)
        .ok (hit.recreated comment2 owner2, { db with timer := rows })
      else .error .foreignKey
    | none =>
      if db.employee.any (fun r => decide (r.id = owner)) then
        let row : TimerRow :=
          { uuid := uuid, start := start, finish := 0, comment := comment, completed := false,
            employee_id := owner, version := 1 }
        .ok (row, { db with timer := db.timer ++ [row] })
      else .error .foreignKey
  | .ok _ => .error .badArguments

/-- Statement of `TimerRead`:
`SELECT uuid, start, finish, comment, completed, employee_id, version FROM timer WHERE uuid=?`. -/
def selectTimer (db : DB) (args : List Value) : Except Err TimerRow :=
  match driverArgs args with
  | .error err => .error err
  | .ok [.text uuid] =>
    match db.timer.find? (fun r => decide (r.uuid = uuid)) with
    | some row => .ok row
    | none => .error .errNoRows
  | .ok _ => .error .badArguments

/-- Statement of `TimerWrite`:
`UPDATE timer SET comment=?, version=? WHERE uuid=? AND version=?`.
The rows that the update changes are counted. -/
def updateTimer (db : DB) (args : List Value) : Except Err (Nat × DB) :=
  match driverArgs args with
  | .error err => .error err
  | .ok [.text comment, .integer version2, .text uuid, .integer version] =>
    let n := (db.timer.filter (fun r => decide (r.uuid = uuid ∧ r.version = version) &&
      !decide (r.comment = comment ∧ r.version = version2))).length
    let rows : List TimerRow := db.timer.map (fun r => if r.uuid = uuid ∧ r.version = version then
      { r with comment := comment, version := version2 } else r)
    .ok (n, { db with timer := rows })
  | .ok _ => .error .badArguments

/-- Statement of `TimerWrite`:
`SELECT uuid, timer_start, timer_finish, timer_comment, timer_completed FROM timer
 WHERE uuid = ?`.
Table `timer` has the columns `start`, `finish`, `comment` and `completed` that `TimerCreate`
and `TimerRead` name; the `timer_` columns do not exist. -/
def selectTimerWritten (_db : DB) (args : List Value) : Except Err TimerRow :=
  match driverArgs args with
  | .error err => .error err
  | .ok [.text _] => .error .unknownColumn
  | .ok _ => .error .badArguments

/-- Statement of `TimerDelete` for an empty identifier: `DELETE from timer`. -/
def deleteTimerAll (db : DB) (args : List Value) : Except Err (Nat × DB) :=
  match driverArgs args with
  | .error err => .error err
  | .ok [] => .ok (db.timer.length, { db with timer := [] })
  | .ok _ => .error .badArguments

/-- Statement of `TimerDelete`: `DELETE from timer WHERE uuid=?`. -/
def deleteTimer (db : DB) (args : List Value) : Except Err (Nat × DB) :=
  match driverArgs args with
  | .error err => .error err
  | .ok [.text uuid] =>
    .ok ((db.timer.filter (fun r => decide (r.uuid = uuid))).length,
      { db with timer := db.timer.filter (fun r => !decide (r.uuid = uuid)) })
  | .ok _ => .error .badArguments

/-- The `row.Scan` of `TimerCreate`: `uuid, start, comment, employee_id, version` into a fresh
`&Timer{}`; the integer `employee_id` lands in the string field `EmployeeID`. -/
def scanTimerCreated (row : TimerRow) : Timer :=
  { Timer.zero with
    ID := row.uuid, Start := row.start, Comment := row.comment,
    EmployeeID := toString row.employee_id, Version := row.version }

/-- The `row.Scan` of `TimerRead`: `uuid, start, finish, comment, completed, employee_id,
version` into a fresh `&Timer{}`. -/
def scanTimer (row : TimerRow) : Timer :=
  { Timer.zero with
    ID := row.uuid, Start := row.start, Finish := row.finish, Comment := row.comment,
    Completed := row.completed, EmployeeID := toString row.employee_id, Version := row.version }

/-- The `row.Scan` of `TimerWrite`: five columns into a fresh `&Timer{}`. -/
def scanTimerWritten (row : TimerRow) : Timer :=
  { Timer.zero with
    ID := row.uuid, Start := row.start, Finish := row.finish, Comment := row.comment,
    Completed := row.completed }

/-! ## The timer operations of `sql.go` -/

/-- The Go function `TimerCreate`. -/
def TimerCreate (db : DB) (timer : Option Timer) : Except Err Timer × DB :=
  match timer with
  | none => (.error .nilArgument, db)
  | some timer =>
    let tx := Begin db
    match tx.QueryRow selectEmployeeId [.text timer.EmployeeID] with
    | .error err => (.error err, tx.Rollback)
    | .ok employeeID =>
      match tx.QueryRowReturning insertTimer
        [.text timer.ID, .integer timer.Start, .text timer.Comment, .integer employeeID,
         .text timer.Comment, .integer employeeID] with
      | .error err => (.error err, tx.Rollback)
      | .ok (row, tx) => (.ok (scanTimerCreated row), tx.Commit)

/-- The Go function `TimerRead`. -/
def TimerRead (db : DB) (timerUUID : String) : Except Err Timer × DB :=
  let tx := Begin db
  match tx.QueryRow selectTimer [.text timerUUID] with
  | .error .errNoRows => (.error .notFound, tx.Rollback)
  | .error err => (.error err, tx.Rollback)
  | .ok row => (.ok (scanTimer row), tx.Rollback)

/-- The Go function `TimerWrite`.  The call is `tx.Exec(query, args)`, without the `...`: the
slice `args` is the single argument of the statement. -/
def TimerWrite (db : DB) (timer : Option Timer) : Except Err Timer × DB :=
  match timer with
  | none => (.error .nilArgument, db)
  | some timer =>
    let tx := Begin db
    let args : List Value :=
      [.text timer.Comment, .integer (wrapInt64 (timer.Version + 1)), .text timer.ID,
       .integer timer.Version]
    match tx.Exec updateTimer [.slice args] with
    | .error err => (.error err, tx.Rollback)
    | .ok (n, tx) =>
      match RowsAffected n with
      | .error err => (.error err, tx.Rollback)
      | .ok _ =>
        match tx.QueryRow selectTimerWritten [.text timer.ID] with
        | .error err => (.error err, tx.Rollback)
        | .ok row => (.ok (scanTimerWritten row), tx.Commit)

/-- The Go function `TimerDelete`: `none` is returned for a nil error. -/
def TimerDelete (db : DB) (timerID : String) : Option Err × DB :=
  if timerID = "" then
    match deleteTimerAll db [] with
    | .error err => (some err, db)
    | .ok (_, db) => (none, db)
  else
    match deleteTimer db [.text timerID] with
    | .error err => (some err, db)
    | .ok (_, db) => (none, db)

/-- A run of `EmployeeWrite` calls on the row `id`: the first call presents version `v`, each
later call the version the call before it returned, with the payloads (first name, last name,
email address) of `ps`.  The versions returned, when every call succeeds. -/
def writeRun (db : DB) (id : String) (v : Int) : List (String × String × String) → Option (List Int)
  | [] => some []
  | (first, last, email) :: ps =>
    let employee : Employee :=
      { ID := id, FirstName := first, LastName := last, EmailAddress := email, Version := v,
        LastUpdated := 0 }
    match EmployeeWrite db (some employee) with
    | (.ok r, db) => (writeRun db id r.Version ps).map (fun vs => r.Version :: vs)
    | (.error _, _) => none

/-! ## One actor of the harness (`main.go`, `employeeConcurrentMutations`) -/

/-- What one actor has counted: `writeFailures` is the counter of the source, `writes` counts
the ticks whose `EmployeeWrite` returned no error (the branch the source leaves empty). -/
structure Tally where
  writeFailures : Nat
  writes : Nat
deriving DecidableEq, Repr

/-- One tick of an actor: `EmployeeRead` of the row, and on success `EmployeeWrite` of what
was read; a read error skips the tick, a write error is counted. -/
def tick (db : DB) (employeeID : String) (tally : Tally) : Tally × DB :=
  match EmployeeRead db employeeID with
  | (.error _, db) => (tally, db)
  | (.ok employee, db) =>
    match EmployeeWrite db (some employee) with
    | (.error _, db) => ({ tally with writeFailures := tally.writeFailures + 1 }, db)
    | (.ok _, db) => ({ tally with writes := tally.writes + 1 }, db)

/-- The loop of an actor, for `k` ticks before the stop signal. -/
def ticks (employeeID : String) : Nat → DB → Tally → Tally × DB
  | 0, db, tally => (tally, db)
  | k + 1, db, tally =>
    match tick db employeeID tally with
    | (tally, db) => ticks employeeID k db tally

/-- A single actor that runs alone for `k` ticks, its counters starting at zero. -/
def actor (db : DB) (employeeID : String) (k : Nat) : Tally × DB :=
  ticks employeeID k db { writeFailures := 0, writes := 0 }

/-! ## Configuration (`config.go`) -/

/-- Go struct `Configuration`. -/
structure Configuration where
  Hostname : String
  Port : String
  Username : String
  Password : String
  Database : String
  ParseTime : Bool
deriving DecidableEq, Repr

/-- The Go function `ConfigFromEnv`; the map `envs` is a list of key and value pairs, a key
is looked up with `List.lookup`. -/
def ConfigFromEnv (envs : List (String × String)) : Configuration :=
  let c : Configuration :=
    { Hostname := "localhost", Port := "3306", Username := "root", Password := "mysql",
      Database := "bludgeon", ParseTime := false }
  let c := match envs.lookup "HOSTNAME" with
    | some hostname => { c with Hostname := hostname }
    | none => c
  let c := match envs.lookup "PORT" with
    | some port => { c with Port := port }
    | none => c
  let c := match envs.lookup "USERNAME" with
    | some username => { c with Username := username }
    | none => c
  let c := match envs.lookup "PASSWORD" with
    | some password => { c with Password := password }
    | none => c
  let c := match envs.lookup "DATABASE" with
    | some database => { c with Database := database }
    | none => c
  c

/-! ## Sample stores, after the scenario of the specification -/

/-- The employee `E1` at version 2. -/
def sampleRow : EmployeeRow :=
  { id := 1, uuid := "E1", first_name := "Antonio", last_name := "Alexander",
    email_address := "a@x.com", version := 2 }

/-- A store that holds `E1` and no timer. -/
def sampleStore : DB := { employee := [sampleRow], timer := [] }

/-- A write to `E1` that presents version 2 and a new first name. -/
def sampleEmployee : Employee :=
  { ID := "E1", FirstName := "Tony", LastName := "Alexander", EmailAddress := "a@x.com",
    Version := 2, LastUpdated := 0 }

/-- An employee `E2` that is not stored, given with a version and a last-updated time. -/
def newEmployee : Employee :=
  { ID := "E2", FirstName := "Teddy", LastName := "Perkins", EmailAddress := "b@x.com",
    Version := 9, LastUpdated := 7 }

/-- A timer `T1` of `E1`, stored finished and completed at version 3. -/
def sampleTimerRow : TimerRow :=
  { uuid := "T1", start := 100, finish := 500, comment := "done", completed := true,
    employee_id := 1, version := 3 }

/-- A store that holds `E1` and its timer `T1`. -/
def timerStore : DB := { employee := [sampleRow], timer := [sampleTimerRow] }

/-- A timer payload `T1` whose owner identifier is not stored. -/
def sampleTimer : Timer :=
  { ID := "T1", Comment := "This is a comment", Start := 200, Finish := 0, ElapsedTime := 0,
    Completed := false, Version := 0, EmployeeID := "" }

/-- A store that holds `E1` at the largest version a Go `int` can carry. -/
def topStore : DB :=
  { employee := [{ sampleRow with version := 9223372036854775807 }], timer := [] }

/-! ## Theorems -/

theorem find?_key_of_nodup {α κ : Type} [DecidableEq κ] (key : α → κ) :
    ∀ (l : List α), (l.map key).Nodup → ∀ a ∈ l,
      l.find? (fun r => decide (key r = key a)) = some a
  | [], _, a, ha => by simp at ha
  | b :: l, h, a, ha => by
    rw [List.map_cons, List.nodup_cons] at h
    rcases List.mem_cons.mp ha with rfl | ha'
    · simp
    · have hne : key b ≠ key a := by
        intro heq
        apply h.1
        rw [heq]
        exact List.mem_map_of_mem key ha'
      simp [List.find?_cons, hne, find?_key_of_nodup key l h.2 a ha']

theorem filter_length_eq_zero_iff {α : Type} (p : α → Bool) (l : List α) :
    (l.filter p).length = 0 ↔ ∀ a ∈ l, p a = false := by
  rw [List.length_eq_zero, List.filter_eq_nil_iff]
  simp

/-- The outcomes of `EmployeeWrite` on a non-nil employee. -/
theorem EmployeeWrite_eq (db : DB) (e : Employee) :
    EmployeeWrite db (some e) =
      if (db.employee.filter (fun r => decide (r.uuid = e.ID ∧ r.version = e.Version))).length = 0
      then (.error .noRowsAffected, db)
      else if emailTaken db.employee e.EmailAddress e.ID e.Version = true
      then (.error .duplicateKey, db)
      else
        match (writtenRows db.employee e.FirstName e.LastName e.EmailAddress e.ID e.Version).find?
            (fun r => decide (r.uuid = e.ID ∧ r.version = wrapInt64 (e.Version + 1))) with
        | some row => (.ok (scanEmployee row),
            { db with employee := writtenRows db.employee e.FirstName e.LastName e.EmailAddress e.ID e.Version })
        | none => (.error .errNoRows, db) := by
  simp only [EmployeeWrite, Begin, Tx.Exec, Tx.QueryRow, Tx.Rollback, Tx.Commit, updateEmployee,
    selectEmployeeVersion, driverArgs, Value.supported, List.all_cons, List.all_nil,
    Bool.and_self, if_true]
  by_cases hn : (List.filter (fun r => decide (r.uuid = e.ID ∧ r.version = e.Version))
      db.employee).length = 0
  · simp only [hn, if_true, RowsAffected]
  · simp only [hn, if_false]
    split_ifs with hd
    · rfl
    · simp only [RowsAffected, hn, if_false]
      cases List.find? (fun r => decide (r.uuid = e.ID ∧ r.version = wrapInt64 (e.Version + 1)))
        (writtenRows db.employee e.FirstName e.LastName e.EmailAddress e.ID e.Version) <;> rfl

theorem EmployeeRead_eq (db : DB) (x : String) :
    EmployeeRead db x =
      match db.employee.find? (fun r => decide (r.uuid = x)) with
      | some row => (.ok (scanEmployee row), db)
      | none => (.error .notFound, db) := by
  simp only [EmployeeRead, Begin, Tx.QueryRow, Tx.Rollback, selectEmployee, driverArgs,
    Value.supported, List.all_cons, List.all_nil, Bool.and_self, if_true]
  cases List.find? (fun r => decide (r.uuid = x)) db.employee <;> rfl

theorem uuids_writtenRows (rows : List EmployeeRow) (first last email uuid : String)
    (version : Int) : uuids (writtenRows rows first last email uuid version) = uuids rows := by
  simp only [uuids, writtenRows, List.map_map]
  apply List.map_congr_left
  intro r _
  simp only [Function.comp]
  split_ifs <;> rfl

/-- What a successful `EmployeeWrite` found and stored. -/
theorem EmployeeWrite_ok_inv (db db' : DB) (e r : Employee)
    (h : EmployeeWrite db (some e) = (.ok r, db')) :
    ∃ row, (writtenRows db.employee e.FirstName e.LastName e.EmailAddress e.ID e.Version).find?
        (fun x => decide (x.uuid = e.ID ∧ x.version = wrapInt64 (e.Version + 1))) = some row ∧
      r = scanEmployee row ∧
      db' = { db with employee := writtenRows db.employee e.FirstName e.LastName e.EmailAddress e.ID e.Version } ∧
      (∃ x ∈ db.employee, x.uuid = e.ID ∧ x.version = e.Version) := by
  rw [EmployeeWrite_eq] at h
  split_ifs at h with hn hd
  · cases h
  · cases h
  · cases hf : (writtenRows db.employee e.FirstName e.LastName e.EmailAddress e.ID
        e.Version).find? (fun x => decide (x.uuid = e.ID ∧ x.version = wrapInt64 (e.Version + 1))) with
    | none => rw [hf] at h; cases h
    | some row =>
      rw [hf] at h
      simp only [Prod.mk.injEq, Except.ok.injEq] at h
      refine ⟨row, rfl, h.1.symm, h.2.symm, ?_⟩
      by_contra hcon
      apply hn
      rw [filter_length_eq_zero_iff]
      intro a ha
      simp only [decide_eq_false_iff_not]
      intro hp
      exact hcon ⟨a, ha, hp⟩

/-- The `UPDATE` of `EmployeeWrite`, when it is not refused, keeps the email addresses of
the table distinct. -/
theorem emails_writtenRows_nodup (rows : List EmployeeRow) (first last email uuid : String)
    (version : Int) (hu : UniqueKeys rows) (hfree : emailTaken rows email uuid version = false) :
    (emails (writtenRows rows first last email uuid version)).Nodup := by
  simp only [emailTaken, Bool.or_eq_false_iff, List.any_eq_false, Bool.and_eq_true,
    Bool.not_eq_true', decide_eq_false_iff_not, decide_eq_true_eq, not_and] at hfree
  have hne : ∀ r ∈ rows, ¬ (r.uuid = uuid ∧ r.version = version) → r.email_address ≠ email :=
    fun r hr hnot => hfree.2 r hr (fun h1 h2 => hnot ⟨h1, h2⟩)
  simp only [emails, writtenRows, List.map_map]
  apply List.Nodup.map_on _ (List.Nodup.of_map _ hu.1)
  intro x hx y hy hxy
  simp only [Function.comp] at hxy
  by_cases hcx : x.uuid = uuid ∧ x.version = version <;>
    by_cases hcy : y.uuid = uuid ∧ y.version = version
  · exact List.inj_on_of_nodup_map hu.1 hx hy (hcx.1.trans hcy.1.symm)
  · rw [if_pos hcx, if_neg hcy] at hxy
    exact absurd hxy.symm (hne y hy hcy)
  · rw [if_neg hcx, if_pos hcy] at hxy
    exact absurd hxy (hne x hx hcx)
  · rw [if_neg hcx, if_neg hcy] at hxy
    exact List.inj_on_of_nodup_map hu.2 hx hy hxy

theorem EmployeeWrite_unique (db : DB) (a : Option Employee) (hu : UniqueKeys db.employee) :
    UniqueKeys (EmployeeWrite db a).2.employee := by
  cases a with
  | none => exact hu
  | some e =>
    rw [EmployeeWrite_eq]
    split_ifs with hn hd
    · exact hu
    · exact hu
    · cases List.find? (fun r => decide (r.uuid = e.ID ∧ r.version = wrapInt64 (e.Version + 1)))
        (writtenRows db.employee e.FirstName e.LastName e.EmailAddress e.ID e.Version) with
      | none => exact hu
      | some row =>
        show UniqueKeys (writtenRows db.employee e.FirstName e.LastName e.EmailAddress e.ID
          e.Version)
        exact ⟨by rw [uuids_writtenRows]; exact hu.1,
          emails_writtenRows_nodup _ _ _ _ _ _ hu (by simpa using hd)⟩

/-- Under the unique keys, the row a successful `EmployeeWrite` returns is the row its
update wrote: the fields given, one version after the version given. -/
theorem EmployeeWrite_ok_row (db db' : DB) (e r : Employee) (hu : UniqueKeys db.employee)
    (h : EmployeeWrite db (some e) = (.ok r, db')) :
    ∃ row ∈ db'.employee, r = scanEmployee row ∧ row.uuid = e.ID ∧
      row.first_name = e.FirstName ∧ row.last_name = e.LastName ∧
      row.email_address = e.EmailAddress ∧ row.version = e.Version + 1 := by
  obtain ⟨row, hf, hr, hdb, x, hx, hxu, hxv⟩ := EmployeeWrite_ok_inv db db' e r h
  have hp := List.find?_some hf
  simp only [decide_eq_true_eq] at hp
  have hmem := List.mem_of_find?_eq_some hf
  refine ⟨row, by rw [hdb]; exact hmem, hr, hp.1, ?_⟩
  simp only [writtenRows, List.mem_map] at hmem
  obtain ⟨r0, hr0, hr0eq⟩ := hmem
  split_ifs at hr0eq with hc
  · subst hr0eq
    exact ⟨rfl, rfl, rfl, by simp only [EmployeeRow.written, hc.2]⟩
  · subst hr0eq
    have : r0 = x := List.inj_on_of_nodup_map hu.1 hr0 hx (hp.1.trans hxu.symm)
    subst this
    exact absurd ⟨hxu, hxv⟩ hc

theorem writeRun_versions : ∀ (ps : List (String × String × String)) (db : DB) (id : String)
    (v : Int) (vs : List Int), UniqueKeys db.employee → writeRun db id v ps = some vs →
      vs = (List.range ps.length).map (fun (i : Nat) => v + 1 + (i : Int))
  | [], db, id, v, vs, _, h => by
    simp only [writeRun, Option.some.injEq] at h
    simp [← h]
  | (first, last, email) :: ps, db, id, v, vs, hu, h => by
    simp only [writeRun] at h
    split at h
    · rename_i r db1 hw
      obtain ⟨row, -, hr, -, -, -, -, hver⟩ := EmployeeWrite_ok_row _ _ _ _ hu hw
      have hv : r.Version = v + 1 := by rw [hr]; exact hver
      have hu1 : UniqueKeys db1.employee := by
        have := EmployeeWrite_unique db (some { ID := id, FirstName := first, LastName := last, EmailAddress := email, Version := v, LastUpdated := 0 }) hu
        rw [hw] at this
        exact this
      cases hrun : writeRun db1 id r.Version ps with
      | none => rw [hrun] at h; simp at h
      | some vs1 =>
        rw [hrun] at h
        simp only [Option.map_some', Option.some.injEq] at h
        have ih := writeRun_versions ps db1 id r.Version vs1 hu1 hrun
        rw [← h, ih, hv, List.length_cons, List.range_succ_eq_map, List.map_cons, List.map_map]
        simp only [Nat.cast_zero, add_zero, List.cons.injEq, true_and]
        apply List.map_congr_left
        intro i _
        simp only [Function.comp, Nat.cast_succ]
        ring
    · cases h

/-- C1: when no stored row has both the identifier and the version of the employee given
(the version is stale, or the identifier is not stored), `EmployeeWrite` returns no employee
and an error, and the store after the call is the store before it. -/
theorem EmployeeWrite_version_mismatch (db : DB) (e : Employee)
    (h : ∀ r ∈ db.employee, ¬ (r.uuid = e.ID ∧ r.version = e.Version)) :
    EmployeeWrite db (some e) = (.error .noRowsAffected, db) := by
  rw [EmployeeWrite_eq, if_pos]
  rw [filter_length_eq_zero_iff]
  intro a ha
  simpa using h a ha

/-- C2: when `EmployeeWrite` succeeds, the employee returned has the identifier, first name,
last name and email address that were given and the version given plus 1, and it is the row
stored under that identifier after the call (what `EmployeeRead` returns, and every stored
row with that identifier).  In a run of successful writes on one row, each fed the version
the write before it returned, the versions returned are `v + 1`, `v + 2`, ... in this order:
one more per call, no gap and no repeat. -/
theorem EmployeeWrite_returns_written_row (db db' : DB) (e r : Employee) (id : String) (v : Int)
    (ps : List (String × String × String)) (vs : List Int)
    (hu : UniqueKeys db.employee)
    (hw : EmployeeWrite db (some e) = (.ok r, db'))
    (hrun : writeRun db id v ps = some vs) :
    r.ID = e.ID ∧ r.FirstName = e.FirstName ∧ r.LastName = e.LastName ∧
      r.EmailAddress = e.EmailAddress ∧ r.Version = e.Version + 1 ∧
      EmployeeRead db' e.ID = (.ok r, db') ∧
      (∀ row ∈ db'.employee, row.uuid = e.ID → scanEmployee row = r) ∧
      vs = (List.range ps.length).map (fun (i : Nat) => v + 1 + (i : Int)) := by
  obtain ⟨row, hmem', hr, hid, hfirst, hlast, hemail, hver⟩ :=
    EmployeeWrite_ok_row db db' e r hu hw
  have hnd : (List.map (fun r => r.uuid) db'.employee).Nodup := by
    have := EmployeeWrite_unique db (some e) hu
    rw [hw] at this
    exact this.1
  have hall : ∀ row2 ∈ db'.employee, row2.uuid = e.ID → row2 = row := fun row2 h2 hu2 =>
    List.inj_on_of_nodup_map hnd h2 hmem' (hu2.trans hid.symm)
  refine ⟨?_, ?_, ?_, ?_, ?_, ?_, ?_, writeRun_versions ps db id v vs hu hrun⟩
  · rw [hr]; exact hid
  · rw [hr]; exact hfirst
  · rw [hr]; exact hlast
  · rw [hr]; exact hemail
  · rw [hr]; exact hver
  · have := find?_key_of_nodup (fun r : EmployeeRow => r.uuid) db'.employee hnd row hmem'
    simp only [hid] at this
    rw [EmployeeRead_eq, this, hr]
  · intro row2 h2 hu2
    rw [hall row2 h2 hu2, hr]

/-- Witness of C1: `E1` is stored at version 2, the write presents version 1. -/
theorem EmployeeWrite_version_mismatch_witness :
    (∀ r ∈ sampleStore.employee,
        ¬ (r.uuid = ({ sampleEmployee with Version := 1 } : Employee).ID ∧
           r.version = ({ sampleEmployee with Version := 1 } : Employee).Version)) ∧
      EmployeeWrite sampleStore (some { sampleEmployee with Version := 1 }) =
        (.error .noRowsAffected, sampleStore) :=
  ⟨by decide, EmployeeWrite_version_mismatch sampleStore _ (by decide)⟩

/-- Witness of C2: the write of version 2 to `E1` returns version 3, and two further writes
return 4 and 5. -/
theorem EmployeeWrite_returns_written_row_witness :
    UniqueKeys sampleStore.employee ∧
      EmployeeWrite sampleStore (some sampleEmployee) =
        (.ok { sampleEmployee with Version := 3 },
         { sampleStore with employee := [sampleRow.written "Tony" "Alexander" "a@x.com"] }) ∧
      writeRun sampleStore "E1" 2 [("Tony", "A", "a@x.com"), ("Toni", "A", "b@x.com")]
        = some [3, 4] ∧
      ({ sampleEmployee with Version := 3 } : Employee).Version = sampleEmployee.Version + 1 ∧
      EmployeeRead { sampleStore with employee := [sampleRow.written "Tony" "Alexander" "a@x.com"] }
        sampleEmployee.ID = (.ok { sampleEmployee with Version := 3 },
          { sampleStore with employee := [sampleRow.written "Tony" "Alexander" "a@x.com"] }) ∧
      [3, 4] = (List.range 2).map (fun (i : Nat) => (2 : Int) + 1 + (i : Int)) :=
  have h := EmployeeWrite_returns_written_row sampleStore
    { sampleStore with employee := [sampleRow.written "Tony" "Alexander" "a@x.com"] }
    sampleEmployee { sampleEmployee with Version := 3 } "E1" 2
    [("Tony", "A", "a@x.com"), ("Toni", "A", "b@x.com")] [3, 4] (by decide) rfl rfl
  ⟨by decide, rfl, rfl, h.2.2.2.2.1, h.2.2.2.2.2.1, h.2.2.2.2.2.2.2⟩

/-- The three outcomes of `EmployeeCreate` on a non-nil employee. -/
theorem EmployeeCreate_eq (db : DB) (e : Employee) :
    EmployeeCreate db (some e) =
      match db.employee.find? (fun r => decide (r.uuid = e.ID)) with
      | some hit => (.ok (scanEmployee (hit.recreated e.FirstName e.LastName)),
          { db with employee := db.employee.map (fun r => if r.uuid = e.ID then r.recreated e.FirstName e.LastName else r) })
      | none =>
        match db.employee.find? (fun r => decide (r.email_address = e.EmailAddress)) with
        | some hit => (.ok (scanEmployee (hit.recreated e.FirstName e.LastName)),
            { db with employee := db.employee.map (fun r => if r.email_address = e.EmailAddress then r.recreated e.FirstName e.LastName else r) })
        | none => (.ok { e with Version := 1, LastUpdated := 0 },
            { db with employee := db.employee ++ [{ id := nextId db.employee, uuid := e.ID, first_name := e.FirstName, last_name := e.LastName, email_address := e.EmailAddress, version := 1 }] }) := by
  simp only [EmployeeCreate, insertEmployee, driverArgs, Value.supported, List.all_cons,
    List.all_nil, Bool.and_self, if_true]
  cases List.find? (fun r => decide (r.uuid = e.ID)) db.employee with
  | some hit => rfl
  | none =>
    cases List.find? (fun r => decide (r.email_address = e.EmailAddress)) db.employee with
    | some hit => rfl
    | none => rfl

theorem find?_eq_none_of_forall {α : Type} (p : α → Bool) (l : List α)
    (h : ∀ a ∈ l, p a = false) : l.find? p = none := by
  rw [List.find?_eq_none]
  intro a ha
  simp [h a ha]

/-- C3, as amended: when no stored row has the identifier or the email address of the
employee given, `EmployeeCreate` succeeds, appends exactly one row, at version 1, with the
identifier, names and email address given, and returns the employee given with `Version`
set to 1 and `LastUpdated` set to 0. -/
theorem EmployeeCreate_fresh (db : DB) (e : Employee)
    (h : ∀ r ∈ db.employee, r.uuid ≠ e.ID ∧ r.email_address ≠ e.EmailAddress) :
    EmployeeCreate db (some e) =
      (.ok { e with Version := 1, LastUpdated := 0 },
       { db with employee := db.employee ++ [{ id := nextId db.employee, uuid := e.ID, first_name := e.FirstName, last_name := e.LastName, email_address := e.EmailAddress, version := 1 }] }) := by
  rw [EmployeeCreate_eq, find?_eq_none_of_forall, find?_eq_none_of_forall]
  · intro a ha
    simpa using (h a ha).2
  · intro a ha
    simpa using (h a ha).1

/-- Witness of C3 as amended: `E2` with a new email address is created next to `E1`. -/
theorem EmployeeCreate_fresh_witness :
    (∀ r ∈ sampleStore.employee, r.uuid ≠ newEmployee.ID ∧
        r.email_address ≠ newEmployee.EmailAddress) ∧
      EmployeeCreate sampleStore (some newEmployee) =
      (.ok { ID := "E2", FirstName := "Teddy", LastName := "Perkins",
             EmailAddress := "b@x.com", Version := 1, LastUpdated := 0 },
       { sampleStore with employee := [sampleRow, { id := 2, uuid := "E2", first_name := "Teddy", last_name := "Perkins", email_address := "b@x.com", version := 1 }] }) :=
  ⟨by decide, EmployeeCreate_fresh sampleStore newEmployee (by decide)⟩

/-- Counterexample to C3 as stated: an employee given with `LastUpdated` 7 comes back with
`LastUpdated` 0, so the value returned is not the input with `Version` set to 1. -/
theorem EmployeeCreate_fresh_counterexample :
    (∀ r ∈ sampleStore.employee, r.uuid ≠ newEmployee.ID ∧
        r.email_address ≠ newEmployee.EmailAddress) ∧
      (EmployeeCreate sampleStore (some newEmployee)).1 =
        .ok { newEmployee with Version := 1, LastUpdated := 0 } ∧
      ({ newEmployee with Version := 1, LastUpdated := 0 } : Employee) ≠
        { newEmployee with Version := 1 } :=
  ⟨by decide, rfl, by decide⟩

theorem uuids_recreated (rows : List EmployeeRow) (p : EmployeeRow → Prop) [DecidablePred p]
    (first last : String) :
    uuids (rows.map (fun r => if p r then r.recreated first last else r)) = uuids rows := by
  simp only [uuids, List.map_map]
  apply List.map_congr_left
  intro r _
  simp only [Function.comp]
  split_ifs <;> rfl

theorem emails_recreated (rows : List EmployeeRow) (p : EmployeeRow → Prop) [DecidablePred p]
    (first last : String) :
    emails (rows.map (fun r => if p r then r.recreated first last else r)) = emails rows := by
  simp only [emails, List.map_map]
  apply List.map_congr_left
  intro r _
  simp only [Function.comp]
  split_ifs <;> rfl

/-- The outcomes of `TimerCreate` on a non-nil timer. -/
theorem TimerCreate_eq (db : DB) (t : Timer) :
    TimerCreate db (some t) =
      match db.employee.find? (fun r => decide (r.uuid = t.EmployeeID)) with
      | none => (.error .errNoRows, db)
      | some owner =>
        match db.timer.find? (fun r => decide (r.uuid = t.ID)) with
        | some hit => (.ok (scanTimerCreated (hit.recreated t.Comment owner.id)),
            { db with timer := db.timer.map (fun r => if r.uuid = t.ID then r.recreated t.Comment owner.id else r) })
        | none => (.ok { Timer.zero with ID := t.ID, Start := t.Start, Comment := t.Comment, EmployeeID := toString owner.id, Version := 1 },
            { db with timer := db.timer ++ [{ uuid := t.ID, start := t.Start, finish := 0, comment := t.Comment, completed := false, employee_id := owner.id, version := 1 }] }) := by
  simp only [TimerCreate, Begin, Tx.QueryRow, Tx.QueryRowReturning, Tx.Rollback, Tx.Commit,
    selectEmployeeId, insertTimer, driverArgs, Value.supported, List.all_cons, List.all_nil,
    Bool.and_self, if_true]
  cases hf : List.find? (fun r => decide (r.uuid = t.EmployeeID)) db.employee with
  | none => rfl
  | some owner =>
    have hany : db.employee.any (fun r => decide (r.id = owner.id)) = true := by
      rw [List.any_eq_true]
      exact ⟨owner, List.mem_of_find?_eq_some hf, by simp⟩
    simp only [hany, if_true]
    cases List.find? (fun r => decide (r.uuid = t.ID)) db.timer with
    | some hit => rfl
    | none => rfl

theorem TimerRead_eq (db : DB) (x : String) :
    TimerRead db x =
      match db.timer.find? (fun r => decide (r.uuid = x)) with
      | some row => (.ok (scanTimer row), db)
      | none => (.error .notFound, db) := by
  simp only [TimerRead, Begin, Tx.QueryRow, Tx.Rollback, selectTimer, driverArgs,
    Value.supported, List.all_cons, List.all_nil, Bool.and_self, if_true]
  cases List.find? (fun r => decide (r.uuid = x)) db.timer <;> rfl

/-- When no timer is stored under the identifier of the payload, the timer `TimerCreate`
returns is the timer a `TimerRead` of that identifier returns next. -/
theorem TimerCreate_then_TimerRead_fresh (db db' : DB) (t c : Timer)
    (hfresh : ∀ r ∈ db.timer, r.uuid ≠ t.ID)
    (h : TimerCreate db (some t) = (.ok c, db')) :
    TimerRead db' t.ID = (.ok c, db') := by
  rw [TimerCreate_eq] at h
  cases hf : List.find? (fun r => decide (r.uuid = t.EmployeeID)) db.employee with
  | none => rw [hf] at h; cases h
  | some owner =>
    have hg : List.find? (fun r => decide (r.uuid = t.ID)) db.timer = none := by
      apply find?_eq_none_of_forall
      intro a ha
      simpa using hfresh a ha
    rw [hf, hg] at h
    simp only [Prod.mk.injEq, Except.ok.injEq] at h
    obtain ⟨hc, hdb⟩ := h
    subst hc hdb
    rw [TimerRead_eq]
    simp only [List.find?_append, hg, Option.none_or, List.find?_cons, decide_True,
      List.find?_nil]
    rfl

/-- C6, the code at the failing input: `T1` is stored finished and completed; `TimerCreate`
returns it with `Finish` 0 and `Completed` false, the `TimerRead` that follows returns the
stored `Finish` 500 and `Completed` true. -/
theorem TimerCreate_then_TimerRead_differ :
    (TimerCreate timerStore (some { sampleTimer with EmployeeID := "E1" })).1 =
        .ok { ID := "T1", Comment := "This is a comment", Start := 100, Finish := 0,
              ElapsedTime := 0, Completed := false, Version := 4, EmployeeID := "1" } ∧
      (TimerRead (TimerCreate timerStore (some { sampleTimer with EmployeeID := "E1" })).2
          "T1").1 =
        .ok { ID := "T1", Comment := "This is a comment", Start := 100, Finish := 500,
              ElapsedTime := 0, Completed := true, Version := 4, EmployeeID := "1" } ∧
      (TimerRead (TimerCreate timerStore (some { sampleTimer with EmployeeID := "E1" })).2
          "T1").1 ≠
        (TimerCreate timerStore (some { sampleTimer with EmployeeID := "E1" })).1 :=
  ⟨rfl, rfl, fun h => absurd (Except.ok.inj h) (by decide)⟩

/-- C7, the code at the failing input and at every other: `TimerWrite` hands the argument
slice to `Exec` as one argument, the conversion of that argument fails, the call returns the
error and the store is left as it was.  So it is for `T1`, stored at version 3 and written
with version 3. -/
theorem TimerWrite_fails :
    (∀ (db : DB) (t : Timer), TimerWrite db (some t) = (.error .unsupportedArgument, db)) ∧
      sampleTimerRow ∈ timerStore.timer ∧
      sampleTimerRow.uuid = ({ sampleTimer with Version := 3 } : Timer).ID ∧
      sampleTimerRow.version = ({ sampleTimer with Version := 3 } : Timer).Version ∧
      TimerWrite timerStore (some { sampleTimer with Version := 3 }) =
        (.error .unsupportedArgument, timerStore) :=
  ⟨fun _ _ => rfl, by decide, rfl, rfl, rfl⟩

/-- The two outcomes of `EmployeeDelete` on a non-nil employee. -/
theorem EmployeeDelete_eq (db : DB) (e : Employee) :
    EmployeeDelete db (some e) =
      if db.timer.any (fun t => db.employee.any (fun r =>
          (decide (r.uuid = e.ID) || decide (r.email_address = e.EmailAddress)) &&
            decide (r.id = t.employee_id)))
      then (some .foreignKey, db)
      else (none, { db with employee := db.employee.filter (fun r => !(decide (r.uuid = e.ID) || decide (r.email_address = e.EmailAddress))) }) := by
  simp only [EmployeeDelete, deleteEmployee, deleteEmployeeRows, driverArgs, Value.supported,
    List.all_cons, List.all_nil, Bool.and_self, if_true]
  split_ifs <;> rfl

/-- The two outcomes of `EmployeeDelete` on a nil employee. -/
theorem EmployeeDelete_nil_eq (db : DB) :
    EmployeeDelete db none =
      if db.timer.any (fun t => db.employee.any (fun r => true && decide (r.id = t.employee_id)))
      then (some .foreignKey, db)
      else (none, { db with employee := db.employee.filter (fun _ => !true) }) := by
  simp only [EmployeeDelete, deleteEmployeeAll, deleteEmployeeRows, driverArgs,
    List.all_nil, if_true]
  split_ifs <;> rfl

/-- C8, as amended: when no timer refers to a row that is removed, `EmployeeDelete` of a
non-nil employee returns no error and leaves the prior table without the rows whose
identifier or email address is that of the employee given: a row that differs from it in
both is kept as it was, nothing else is stored, and when no row has its identifier or its
email address the store is unchanged. -/
theorem EmployeeDelete_removes_matching (db : DB) (e : Employee)
    (hfk : ∀ t ∈ db.timer, ∀ r ∈ db.employee,
      r.uuid = e.ID ∨ r.email_address = e.EmailAddress → r.id ≠ t.employee_id) :
    EmployeeDelete db (some e) =
        (none, { db with employee := db.employee.filter (fun r => !(decide (r.uuid = e.ID) || decide (r.email_address = e.EmailAddress))) }) ∧
      (∀ r ∈ db.employee, r.uuid ≠ e.ID → r.email_address ≠ e.EmailAddress →
        r ∈ (EmployeeDelete db (some e)).2.employee) ∧
      (∀ r ∈ (EmployeeDelete db (some e)).2.employee,
        r ∈ db.employee ∧ r.uuid ≠ e.ID ∧ r.email_address ≠ e.EmailAddress) ∧
      ((∀ r ∈ db.employee, r.uuid ≠ e.ID ∧ r.email_address ≠ e.EmailAddress) →
        (EmployeeDelete db (some e)).2 = db) := by
  have heq : EmployeeDelete db (some e) =
      (none, { db with employee := db.employee.filter (fun r => !(decide (r.uuid = e.ID) || decide (r.email_address = e.EmailAddress))) }) := by
    rw [EmployeeDelete_eq, if_neg]
    intro hany
    rw [List.any_eq_true] at hany
    obtain ⟨t, ht, hany⟩ := hany
    rw [List.any_eq_true] at hany
    obtain ⟨r, hr, hp⟩ := hany
    simp only [Bool.and_eq_true, Bool.or_eq_true, decide_eq_true_eq] at hp
    exact hfk t ht r hr hp.1 hp.2
  refine ⟨heq, ?_, ?_, ?_⟩
  · intro r hr h1 h2
    rw [heq]
    simp only [List.mem_filter]
    exact ⟨hr, by simp [h1, h2]⟩
  · intro r hr
    rw [heq] at hr
    simp only [List.mem_filter, Bool.not_eq_true', Bool.or_eq_false_iff,
      decide_eq_false_iff_not] at hr
    exact ⟨hr.1, hr.2.1, hr.2.2⟩
  · intro hno
    rw [heq]
    have : db.employee.filter (fun r => !(decide (r.uuid = e.ID) || decide (r.email_address = e.EmailAddress))) = db.employee := by
      rw [List.filter_eq_self]
      intro a ha
      simp [(hno a ha).1, (hno a ha).2]
    simp only [this]

/-- Witness of C8 as amended: `E1` is deleted from the store that holds it and no timer. -/
theorem EmployeeDelete_removes_matching_witness :
    (∀ t ∈ sampleStore.timer, ∀ r ∈ sampleStore.employee,
        r.uuid = sampleEmployee.ID ∨ r.email_address = sampleEmployee.EmailAddress →
          r.id ≠ t.employee_id) ∧
      EmployeeDelete sampleStore (some sampleEmployee) =
        (none, { sampleStore with employee := [] }) :=
  ⟨by decide, (EmployeeDelete_removes_matching sampleStore sampleEmployee (by decide)).1⟩

/-- Counterexample to C8 as stated: the argument `E2` carries the email address of the stored
`E1`; no row has the identifier `E2`, yet the row `E1` is removed. -/
theorem EmployeeDelete_counterexample :
    sampleRow ∈ sampleStore.employee ∧
      sampleRow.uuid ≠ ({ newEmployee with EmailAddress := "a@x.com" } : Employee).ID ∧
      (∀ r ∈ sampleStore.employee,
        r.uuid ≠ ({ newEmployee with EmailAddress := "a@x.com" } : Employee).ID) ∧
      EmployeeDelete sampleStore (some { newEmployee with EmailAddress := "a@x.com" }) =
        (none, { sampleStore with employee := [] }) ∧
      sampleRow ∉ ({ sampleStore with employee := [] } : DB).employee :=
  ⟨by decide, by decide, by decide, rfl, by decide⟩

/-- The store `TimerDelete` leaves behind holds no timer under the identifier given. -/
theorem TimerDelete_removes (db : DB) (x : String) :
    (TimerDelete db x).1 = none ∧ ∀ r ∈ (TimerDelete db x).2.timer, r.uuid ≠ x := by
  unfold TimerDelete
  split_ifs with hx
  · simp only [deleteTimerAll, driverArgs, List.all_nil, if_true]
    exact ⟨trivial, fun r hr => by cases hr⟩
  · simp only [deleteTimer, driverArgs, Value.supported, List.all_cons, List.all_nil,
      Bool.and_self, if_true]
    refine ⟨trivial, fun r hr => ?_⟩
    simp only [List.mem_filter, Bool.not_eq_true', decide_eq_false_iff_not] at hr
    exact hr.2

/-- C9: `EmployeeRead` and `TimerRead` of an identifier return no entity and an error when
no row has it, so after a delete of it, and return the stored fields of its row, the current
version among them, when a row has it; in both cases the store is unchanged by the read. -/
theorem Read_stored_or_not_found (db : DB) (x : String)
    (hu : UniqueKeys db.employee) (ht : UniqueTimers db.timer) :
    ((∀ r ∈ db.employee, r.uuid ≠ x) → EmployeeRead db x = (.error .notFound, db)) ∧
      (∀ r ∈ db.employee, r.uuid = x → EmployeeRead db x = (.ok (scanEmployee r), db)) ∧
      ((∀ r ∈ db.timer, r.uuid ≠ x) → TimerRead db x = (.error .notFound, db)) ∧
      (∀ r ∈ db.timer, r.uuid = x → TimerRead db x = (.ok (scanTimer r), db)) ∧
      (EmployeeRead db x).2 = db ∧ (TimerRead db x).2 = db ∧
      (∀ e : Employee, e.ID = x → (EmployeeDelete db (some e)).1 = none →
        EmployeeRead (EmployeeDelete db (some e)).2 x =
          (.error .notFound, (EmployeeDelete db (some e)).2)) ∧
      TimerRead (TimerDelete db x).2 x = (.error .notFound, (TimerDelete db x).2) := by
  have hE : ∀ (d : DB), (∀ r ∈ d.employee, r.uuid ≠ x) →
      EmployeeRead d x = (.error .notFound, d) := by
    intro d h
    rw [EmployeeRead_eq, find?_eq_none_of_forall]
    intro a ha
    simpa using h a ha
  have hT : ∀ (d : DB), (∀ r ∈ d.timer, r.uuid ≠ x) →
      TimerRead d x = (.error .notFound, d) := by
    intro d h
    rw [TimerRead_eq, find?_eq_none_of_forall]
    intro a ha
    simpa using h a ha
  refine ⟨hE db, ?_, hT db, ?_, ?_, ?_, ?_, ?_⟩
  · intro r hr hx
    have := find?_key_of_nodup (fun r : EmployeeRow => r.uuid) db.employee hu.1 r hr
    simp only [hx] at this
    rw [EmployeeRead_eq, this]
  · intro r hr hx
    have := find?_key_of_nodup (fun r : TimerRow => r.uuid) db.timer ht r hr
    simp only [hx] at this
    rw [TimerRead_eq, this]
  · rw [EmployeeRead_eq]
    cases List.find? (fun r => decide (r.uuid = x)) db.employee <;> rfl
  · rw [TimerRead_eq]
    cases List.find? (fun r => decide (r.uuid = x)) db.timer <;> rfl
  · intro e he hok
    apply hE
    intro r hr
    rw [EmployeeDelete_eq] at hr hok
    by_cases hany : (db.timer.any (fun t => db.employee.any (fun r =>
        (decide (r.uuid = e.ID) || decide (r.email_address = e.EmailAddress)) &&
          decide (r.id = t.employee_id)))) = true
    · rw [if_pos hany] at hok
      cases hok
    · rw [if_neg hany] at hr
      have hr' : r ∈ db.employee.filter (fun r =>
          !(decide (r.uuid = e.ID) || decide (r.email_address = e.EmailAddress))) := hr
      simp only [List.mem_filter, Bool.not_eq_true', Bool.or_eq_false_iff,
        decide_eq_false_iff_not] at hr'
      rw [← he]
      exact hr'.2.1
  · exact hT _ (TimerDelete_removes db x).2

/-- Witness of C9: in the store that holds `E1` and `T1`, `E1` and `T1` are read back with
their stored fields, `E2` is not found, and after its deletion `T1` is not found. -/
theorem Read_stored_or_not_found_witness :
    UniqueKeys timerStore.employee ∧ UniqueTimers timerStore.timer ∧
      EmployeeRead timerStore "E2" = (.error .notFound, timerStore) ∧
      EmployeeRead timerStore "E1" =
        (.ok { ID := "E1", FirstName := "Antonio", LastName := "Alexander",
               EmailAddress := "a@x.com", Version := 2, LastUpdated := 0 }, timerStore) ∧
      TimerRead timerStore "E2" = (.error .notFound, timerStore) ∧
      TimerRead timerStore "T1" =
        (.ok { ID := "T1", Comment := "done", Start := 100, Finish := 500, ElapsedTime := 0,
               Completed := true, Version := 3, EmployeeID := "1" }, timerStore) ∧
      TimerRead (TimerDelete timerStore "T1").2 "T1" =
        (.error .notFound, (TimerDelete timerStore "T1").2) :=
  ⟨by decide, by decide,
    (Read_stored_or_not_found timerStore "E2" (by decide) (by decide)).1 (by decide),
    (Read_stored_or_not_found timerStore "E1" (by decide) (by decide)).2.1 sampleRow
      (by decide) rfl,
    (Read_stored_or_not_found timerStore "E2" (by decide) (by decide)).2.2.1 (by decide),
    (Read_stored_or_not_found timerStore "T1" (by decide) (by decide)).2.2.2.1 sampleTimerRow
      (by decide) rfl,
    (Read_stored_or_not_found timerStore "T1" (by decide) (by decide)).2.2.2.2.2.2.2⟩

theorem UniqueKeys_filter (rows : List EmployeeRow) (p : EmployeeRow → Bool)
    (hu : UniqueKeys rows) : UniqueKeys (rows.filter p) :=
  ⟨List.Nodup.sublist ((List.filter_sublist rows).map _) hu.1,
   List.Nodup.sublist ((List.filter_sublist rows).map _) hu.2⟩

theorem UniqueKeys_append (rows : List EmployeeRow) (row : EmployeeRow)
    (hu : UniqueKeys rows) (hid : ∀ r ∈ rows, r.uuid ≠ row.uuid)
    (hm : ∀ r ∈ rows, r.email_address ≠ row.email_address) : UniqueKeys (rows ++ [row]) := by
  constructor
  · simp only [uuids, List.map_append, List.map_cons, List.map_nil]
    rw [List.nodup_append]
    refine ⟨hu.1, List.nodup_singleton _, ?_⟩
    intro u hu1 hu2
    rw [List.mem_singleton] at hu2
    rw [List.mem_map] at hu1
    obtain ⟨r, hr, hru⟩ := hu1
    exact hid r hr (hru.trans hu2)
  · simp only [emails, List.map_append, List.map_cons, List.map_nil]
    rw [List.nodup_append]
    refine ⟨hu.2, List.nodup_singleton _, ?_⟩
    intro u hu1 hu2
    rw [List.mem_singleton] at hu2
    rw [List.mem_map] at hu1
    obtain ⟨r, hr, hru⟩ := hu1
    exact hm r hr (hru.trans hu2)

theorem EmployeeCreate_unique (db : DB) (a : Option Employee) (hu : UniqueKeys db.employee) :
    UniqueKeys (EmployeeCreate db a).2.employee := by
  cases a with
  | none => exact hu
  | some e =>
    rw [EmployeeCreate_eq]
    cases hf : List.find? (fun r => decide (r.uuid = e.ID)) db.employee with
    | some hit =>
      show UniqueKeys (db.employee.map (fun r =>
        if r.uuid = e.ID then r.recreated e.FirstName e.LastName else r))
      exact ⟨by rw [uuids_recreated]; exact hu.1, by rw [emails_recreated]; exact hu.2⟩
    | none =>
      cases hg : List.find? (fun r => decide (r.email_address = e.EmailAddress)) db.employee with
      | some hit =>
        show UniqueKeys (db.employee.map (fun r =>
          if r.email_address = e.EmailAddress then r.recreated e.FirstName e.LastName else r))
        exact ⟨by rw [uuids_recreated]; exact hu.1, by rw [emails_recreated]; exact hu.2⟩
      | none =>
        rw [List.find?_eq_none] at hf hg
        apply UniqueKeys_append _ _ hu
        · intro r hr
          simpa using hf r hr
        · intro r hr
          simpa using hg r hr

theorem EmployeeDelete_unique (db : DB) (a : Option Employee) (hu : UniqueKeys db.employee) :
    UniqueKeys (EmployeeDelete db a).2.employee := by
  cases a with
  | none =>
    rw [EmployeeDelete_nil_eq]
    split_ifs
    · exact hu
    · exact UniqueKeys_filter _ _ hu
  | some e =>
    rw [EmployeeDelete_eq]
    split_ifs
    · exact hu
    · exact UniqueKeys_filter _ _ hu

/-- C10: if the employee table has at most one row per identifier and at most one row per
email address, so has the table after a call of `EmployeeCreate`, `EmployeeWrite` or
`EmployeeDelete`, whatever the argument (nil or not) and whether the call succeeds or
fails. -/
theorem UniqueKeys_preserved (db : DB) (a b c : Option Employee)
    (hu : UniqueKeys db.employee) :
    UniqueKeys (EmployeeCreate db a).2.employee ∧
      UniqueKeys (EmployeeWrite db b).2.employee ∧
      UniqueKeys (EmployeeDelete db c).2.employee :=
  ⟨EmployeeCreate_unique db a hu, EmployeeWrite_unique db b hu, EmployeeDelete_unique db c hu⟩

/-- Witness of C10: on the store that holds `E1`, a create of `E2`, a write to `E1` and a
delete of `E1`. -/
theorem UniqueKeys_preserved_witness :
    UniqueKeys sampleStore.employee ∧
      UniqueKeys (EmployeeCreate sampleStore (some newEmployee)).2.employee ∧
      UniqueKeys (EmployeeWrite sampleStore (some sampleEmployee)).2.employee ∧
      UniqueKeys (EmployeeDelete sampleStore (some sampleEmployee)).2.employee :=
  ⟨by decide, UniqueKeys_preserved sampleStore (some newEmployee) (some sampleEmployee)
    (some sampleEmployee) (by decide)⟩

/-- C11: `EmployeeCreate` ignores the version of the employee given: two employees with the
same identifier, first name, last name and email address, whatever their versions, get the
same result and leave the same store. -/
theorem EmployeeCreate_ignores_version (db : DB) (e1 e2 : Employee)
    (hid : e1.ID = e2.ID) (hfirst : e1.FirstName = e2.FirstName)
    (hlast : e1.LastName = e2.LastName) (hemail : e1.EmailAddress = e2.EmailAddress) :
    EmployeeCreate db (some e1) = EmployeeCreate db (some e2) := by
  simp only [EmployeeCreate, hid, hfirst, hlast, hemail]

/-- Witness of C11: `E2` created with version 9 and with version 0, next to `E1`. -/
theorem EmployeeCreate_ignores_version_witness :
    newEmployee.ID = ({ newEmployee with Version := 0 } : Employee).ID ∧
      newEmployee.FirstName = ({ newEmployee with Version := 0 } : Employee).FirstName ∧
      newEmployee.LastName = ({ newEmployee with Version := 0 } : Employee).LastName ∧
      newEmployee.EmailAddress = ({ newEmployee with Version := 0 } : Employee).EmailAddress ∧
      newEmployee.Version ≠ ({ newEmployee with Version := 0 } : Employee).Version ∧
      EmployeeCreate sampleStore (some newEmployee) =
        EmployeeCreate sampleStore (some { newEmployee with Version := 0 }) :=
  ⟨rfl, rfl, rfl, rfl, by decide,
    EmployeeCreate_ignores_version sampleStore newEmployee { newEmployee with Version := 0 }
      rfl rfl rfl rfl⟩

/-- C12, as amended: `ConfigFromEnv` takes hostname, port, username, password and database
name from the keys `HOSTNAME`, `PORT`, `USERNAME`, `PASSWORD` and `DATABASE` when the map
holds them and from the defaults otherwise; time parsing is disabled whatever the map
holds; the empty map gives the defaults. -/
theorem ConfigFromEnv_values (envs : List (String × String)) :
    ConfigFromEnv envs =
        { Hostname := (envs.lookup "HOSTNAME").getD "localhost",
          Port := (envs.lookup "PORT").getD "3306",
          Username := (envs.lookup "USERNAME").getD "root",
          Password := (envs.lookup "PASSWORD").getD "mysql",
          Database := (envs.lookup "DATABASE").getD "bludgeon",
          ParseTime := false } ∧
      ConfigFromEnv [] =
        { Hostname := "localhost", Port := "3306", Username := "root", Password := "mysql",
          Database := "bludgeon", ParseTime := false } := by
  refine ⟨?_, rfl⟩
  unfold ConfigFromEnv
  cases envs.lookup "HOSTNAME" <;> cases envs.lookup "PORT" <;>
    cases envs.lookup "USERNAME" <;> cases envs.lookup "PASSWORD" <;>
    cases envs.lookup "DATABASE" <;> rfl

/-- Counterexample to C12 as stated: no key of the map reaches the time-parsing flag; with
`PARSE_TIME`, `PARSETIME` and `parse_time` set to `true` the flag is disabled, and so it is
for every map. -/
theorem ConfigFromEnv_counterexample :
    (ConfigFromEnv [("PARSE_TIME", "true"), ("PARSETIME", "true"),
        ("parse_time", "true")]).ParseTime = false ∧
      ¬ ∃ envs : List (String × String), (ConfigFromEnv envs).ParseTime = true := by
  refine ⟨rfl, ?_⟩
  rintro ⟨envs, h⟩
  unfold ConfigFromEnv at h
  revert h
  cases envs.lookup "HOSTNAME" <;> cases envs.lookup "PORT" <;>
    cases envs.lookup "USERNAME" <;> cases envs.lookup "PASSWORD" <;>
    cases envs.lookup "DATABASE" <;> intro h <;> cases h

theorem length_le_one_of_nodup_of_forall_eq {α : Type} (a : α) :
    ∀ (l : List α), l.Nodup → (∀ x ∈ l, x = a) → l.length ≤ 1
  | [], _, _ => by simp
  | [_], _, _ => by simp
  | x :: y :: l, hnd, hall => by
    have hx : x = a := hall x (List.mem_cons_self _ _)
    have hy : y = a := hall y (List.mem_cons_of_mem _ (List.mem_cons_self _ _))
    rw [List.nodup_cons] at hnd
    exact absurd (hx.trans hy.symm ▸ List.mem_cons_self _ _) hnd.1

/-- A Go sum that stays within 64 bits is the mathematical sum. -/
theorem wrapInt64_eq (i : Int) (hlo : -9223372036854775808 ≤ i)
    (hhi : i ≤ 9223372036854775807) : wrapInt64 i = i := by
  unfold wrapInt64
  omega

/-- A write of a stored row as it was read succeeds under the unique keys when the next
version is a Go `int`: the row moves to the next version and keeps its other columns. -/
theorem EmployeeWrite_own_row (db : DB) (r : EmployeeRow) (hu : UniqueKeys db.employee)
    (hr : r ∈ db.employee) (hlo : -9223372036854775808 ≤ r.version)
    (hhi : r.version + 1 ≤ 9223372036854775807) :
    EmployeeWrite db (some (scanEmployee r)) =
      (.ok (scanEmployee { r with version := r.version + 1 }),
       { db with employee := writtenRows db.employee r.first_name r.last_name r.email_address r.uuid r.version }) ∧
      ({ r with version := r.version + 1 } : EmployeeRow) ∈
        writtenRows db.employee r.first_name r.last_name r.email_address r.uuid r.version := by
  have hmem : ({ r with version := r.version + 1 } : EmployeeRow) ∈
      writtenRows db.employee r.first_name r.last_name r.email_address r.uuid r.version := by
    simp only [writtenRows, List.mem_map]
    exact ⟨r, hr, by rw [if_pos ⟨rfl, rfl⟩]; rfl⟩
  refine ⟨?_, hmem⟩
  rw [EmployeeWrite_eq]
  have hwrap : wrapInt64 ((scanEmployee r).Version + 1) = r.version + 1 :=
    wrapInt64_eq _ (by simp only [scanEmployee]; omega) (by simp only [scanEmployee]; omega)
  have hn : ¬ (db.employee.filter (fun x => decide (x.uuid = (scanEmployee r).ID ∧
      x.version = (scanEmployee r).Version))).length = 0 := by
    rw [filter_length_eq_zero_iff]
    intro hall
    have := hall r hr
    simp [scanEmployee] at this
  have hone : (db.employee.filter (fun x => decide (x.uuid = (scanEmployee r).ID ∧
      x.version = (scanEmployee r).Version))).length ≤ 1 := by
    apply length_le_one_of_nodup_of_forall_eq r
    · exact List.Nodup.filter _ (List.Nodup.of_map _ hu.1)
    · intro x hx
      simp only [List.mem_filter, decide_eq_true_eq] at hx
      exact List.inj_on_of_nodup_map hu.1 hx.1 hr hx.2.1
  have hfree : ¬ emailTaken db.employee (scanEmployee r).EmailAddress (scanEmployee r).ID
      (scanEmployee r).Version = true := by
    simp only [emailTaken, Bool.or_eq_true, decide_eq_true_eq, List.any_eq_true,
      Bool.and_eq_true, Bool.not_eq_true', decide_eq_false_iff_not, not_or]
    refine ⟨by omega, ?_⟩
    rintro ⟨x, hx, hnot, hmail⟩
    have hxr : x = r := List.inj_on_of_nodup_map hu.2 hx hr hmail
    subst hxr
    exact hnot ⟨rfl, rfl⟩
  rw [if_neg hn, if_neg hfree, hwrap]
  have hnd : (List.map (fun x => x.uuid) (writtenRows db.employee r.first_name r.last_name
      r.email_address r.uuid r.version)).Nodup := by
    have := uuids_writtenRows db.employee r.first_name r.last_name r.email_address r.uuid
      r.version
    simp only [uuids] at this
    rw [this]
    exact hu.1
  cases hf : List.find? (fun x => decide (x.uuid = (scanEmployee r).ID ∧
      x.version = r.version + 1))
      (writtenRows db.employee (scanEmployee r).FirstName (scanEmployee r).LastName
        (scanEmployee r).EmailAddress (scanEmployee r).ID (scanEmployee r).Version) with
  | none =>
    rw [List.find?_eq_none] at hf
    exact absurd (by simp [scanEmployee]) (hf _ hmem)
  | some row =>
    have hp := List.find?_some hf
    simp only [decide_eq_true_eq] at hp
    have hrow : row = { r with version := r.version + 1 } :=
      List.inj_on_of_nodup_map hnd (List.mem_of_find?_eq_some hf) hmem hp.1
    rw [hrow]
    rfl

/-- One tick of an actor that runs alone on a stored row whose next version is a Go `int`:
the write is counted as a success, the row moves to the next version, the unique keys are
kept. -/
theorem tick_own_row (db : DB) (r : EmployeeRow) (tally : Tally)
    (hu : UniqueKeys db.employee) (hr : r ∈ db.employee)
    (hlo : -9223372036854775808 ≤ r.version) (hhi : r.version + 1 ≤ 9223372036854775807) :
    (tick db r.uuid tally).1 = { tally with writes := tally.writes + 1 } ∧
      ({ r with version := r.version + 1 } : EmployeeRow) ∈ (tick db r.uuid tally).2.employee ∧
      UniqueKeys (tick db r.uuid tally).2.employee ∧
      (tick db r.uuid tally).2.timer = db.timer := by
  have hread : EmployeeRead db r.uuid = (.ok (scanEmployee r), db) := by
    rw [EmployeeRead_eq, find?_key_of_nodup (fun x : EmployeeRow => x.uuid) db.employee hu.1 r hr]
  have hwrite := EmployeeWrite_own_row db r hu hr hlo hhi
  have huniq := EmployeeWrite_unique db (some (scanEmployee r)) hu
  rw [hwrite.1] at huniq
  simp only [tick, hread, hwrite.1]
  exact ⟨trivial, hwrite.2, huniq, trivial⟩

theorem ticks_own_row : ∀ (k : Nat) (db : DB) (r : EmployeeRow) (tally : Tally),
    UniqueKeys db.employee → r ∈ db.employee → -9223372036854775808 ≤ r.version →
    r.version + (k : Int) ≤ 9223372036854775807 →
      (ticks r.uuid k db tally).1 =
          { writeFailures := tally.writeFailures, writes := tally.writes + k } ∧
        ({ r with version := r.version + (k : Int) } : EmployeeRow) ∈
          (ticks r.uuid k db tally).2.employee ∧
        UniqueKeys (ticks r.uuid k db tally).2.employee ∧
        (ticks r.uuid k db tally).2.timer = db.timer
  | 0, db, r, tally, hu, hr, _, _ => by
    simp only [ticks, Nat.cast_zero, add_zero]
    exact ⟨trivial, hr, hu, trivial⟩
  | k + 1, db, r, tally, hu, hr, hlo, hhi => by
    have hhi1 : r.version + 1 ≤ 9223372036854775807 := by
      push_cast at hhi
      omega
    obtain ⟨h1, h2, h3, h4⟩ := tick_own_row db r tally hu hr hlo hhi1
    have ih := ticks_own_row k (tick db r.uuid tally).2
      { r with version := r.version + 1 } (tick db r.uuid tally).1 h3 h2
      (by show -9223372036854775808 ≤ r.version + 1; omega)
      (by show r.version + 1 + (k : Int) ≤ 9223372036854775807; push_cast at hhi; omega)
    simp only [ticks]
    obtain ⟨i1, i2, i3, i4⟩ := ih
    refine ⟨?_, ?_, i3, i4.trans h4⟩
    · rw [i1, h1]
      simp only [Tally.mk.injEq, true_and]
      omega
    · have hv : r.version + ((k + 1 : Nat) : Int) = r.version + 1 + (k : Int) := by
        push_cast
        ring
      rw [hv]
      exact i2

/-- C13, as amended: an actor that runs alone for `k` ticks on a stored row whose versions
`n` up to `n + k` are Go `int` values counts `k` successful writes and no write failure; the
row keeps its identifier, first name, last name and email address and ends at version
`n + k`, which is what a read of it returns. -/
theorem actor_alone (db : DB) (r : EmployeeRow) (k : Nat)
    (hu : UniqueKeys db.employee) (hr : r ∈ db.employee)
    (hlo : -9223372036854775808 ≤ r.version)
    (hhi : r.version + (k : Int) ≤ 9223372036854775807) :
    (actor db r.uuid k).1 = { writeFailures := 0, writes := k } ∧
      ({ r with version := r.version + (k : Int) } : EmployeeRow) ∈
        (actor db r.uuid k).2.employee ∧
      (∀ x ∈ (actor db r.uuid k).2.employee, x.uuid = r.uuid →
        x = { r with version := r.version + (k : Int) }) ∧
      EmployeeRead (actor db r.uuid k).2 r.uuid =
        (.ok { ID := r.uuid, FirstName := r.first_name, LastName := r.last_name,
               EmailAddress := r.email_address, Version := r.version + (k : Int),
               LastUpdated := 0 }, (actor db r.uuid k).2) := by
  obtain ⟨h1, h2, h3, -⟩ :=
    ticks_own_row k db r { writeFailures := 0, writes := 0 } hu hr hlo hhi
  refine ⟨?_, h2, ?_, ?_⟩
  · rw [actor, h1]
    simp
  · intro x hx hxu
    exact List.inj_on_of_nodup_map h3.1 hx h2 hxu
  · have := find?_key_of_nodup (fun x : EmployeeRow => x.uuid) _ h3.1 _ h2
    rw [EmployeeRead_eq]
    simp only [actor] at this ⊢
    rw [this]
    rfl

/-- Witness of C13 as amended: three ticks on `E1`, stored at version 2, end at version 5. -/
theorem actor_alone_witness :
    UniqueKeys sampleStore.employee ∧ sampleRow ∈ sampleStore.employee ∧
      -9223372036854775808 ≤ sampleRow.version ∧
      sampleRow.version + ((3 : Nat) : Int) ≤ 9223372036854775807 ∧
      actor sampleStore "E1" 3 =
        ({ writeFailures := 0, writes := 3 },
         { employee := [{ sampleRow with version := 5 }], timer := [] }) ∧
      (actor sampleStore sampleRow.uuid 3).1 = { writeFailures := 0, writes := 3 } ∧
      ({ sampleRow with version := sampleRow.version + ((3 : Nat) : Int) } : EmployeeRow) ∈
        (actor sampleStore sampleRow.uuid 3).2.employee :=
  ⟨by decide, by decide, by decide, by decide, rfl,
    (actor_alone sampleStore sampleRow 3 (by decide) (by decide) (by decide) (by decide)).1,
    (actor_alone sampleStore sampleRow 3 (by decide) (by decide) (by decide) (by decide)).2.1⟩

/-- Counterexample to C13 as stated: `E1` is stored at version `2^63 - 1`; the actor reads
it, the update matches, but the Go sum `employee.Version + 1` of the re-read wraps to
`-2^63` and finds no row, so the one tick counts a write failure and no success, and the
row stays at its version. -/
theorem actor_alone_counterexample :
    UniqueKeys topStore.employee ∧
      ({ sampleRow with version := 9223372036854775807 } : EmployeeRow) ∈ topStore.employee ∧
      wrapInt64 (9223372036854775807 + 1) = -9223372036854775808 ∧
      actor topStore "E1" 1 = ({ writeFailures := 1, writes := 0 }, topStore) :=
  ⟨by decide, by decide, by decide, rfl⟩

end DataConsistency
